import Mathlib

/-!
Verification development for the command-dispatch framework of
`lmi/scripts/common/command/{command.py, meta.py}`.

The embedding translates the framework's pure logic into Lean:

* Python values that flow through option parsing, action invocation and
  result checking are modelled by the inductive `PyVal`.
* Fallible Python code (code that may raise) is modelled with `Except String`;
  a `try/except` block becomes a `match` on the `Except` value.
* The per-connection loops of `LmiLister.process_session`,
  `LmiShowInstance.process_session` and `LmiCheckResult.process_session` are
  modelled as structural recursions over the session's connection list, with
  explicit accumulators mirroring the Python lists that the loops grow.
* Writes to stdout that carry no aggregated data (the `=====` host banners and
  the verbosity-gated progress prints) are not part of the model; every
  `produce_output` call (the data handed to the formatter) is modelled
  explicitly, as is the report data built for failures.
* The associated function (the "action", `self.execute`) and the docopt parse
  are collaborators: they appear as function parameters of the models.

The `Session` type and `base.RE_COMMAND_NAME` live in modules that are not
among the sources; they are modelled from the spec where so noted.
-/

/-- Python values flowing through the framework: docopt option values,
action results, positional arguments. `lmiReturnValue v` models an
`LMIReturnValue` instance whose `rval` field is `v`. -/
inductive PyVal where
  | int (n : Int)
  | str (s : String)
  | bool (b : Bool)
  | pyNone
  | list (xs : List PyVal)
  | dict (xs : List (String × PyVal))
  | lmiReturnValue (rval : PyVal)

/-- A connection to a single host (the `lmi.shell.LMIConnection` capability);
only its `hostname` attribute is read by the framework. -/
structure Conn where
  hostname : String

/-- Modelled from the spec: the `Session` capability (module
`lmi.scripts.common.session` is not among the sources). Iterating a session
yields its connections in order; `get_unconnected()` yields the names of
targets whose connection attempt already failed. -/
structure Session where
  connections : List Conn
  unconnected : List String

/-! ## Option-name normalization (`command.py` lines 46-97) -/

/-- Model of `opt_name_sanitize`: replace every character that is not an
ASCII letter with an underscore (`re.sub` with pattern matching `[^a-zA-Z]`),
then lowercase the result. -/
def optNameSanitize (s : String) : String :=
  String.mk ((s.data.map (fun c => if c.isAlpha then c else '_')).map Char.toLower)

/-- Model of `RE_OPT_BRACKET_ARGUMENT` matching: an angle-bracketed argument
name; on success the regex group `name` (the inner text, which is nonempty and
free of a closing bracket) is returned. -/
def matchBracketArgument (s : String) : Option String :=
  match s.data with
  | '<' :: rest =>
    if rest.getLast? = some '>' then
      let inner := rest.dropLast
      if inner ≠ [] ∧ inner.all (fun c => !(c == '>')) then some (String.mk inner) else none
    else none
  | _ => none

/-- Scanner for `RE_OPT_UPPER_ARGUMENT`: accepts one or more runs of
uppercase ASCII letters separated by single underscores or dashes. The
boolean state records whether the previous character was a letter (so that a
separator is legal and the string may end). -/
def upperArgScan : List Char → Bool → Bool
  | [], inWord => inWord
  | c :: rest, inWord =>
    if c.isUpper then upperArgScan rest true
    else if (c == '_' || c == '-') && inWord then upperArgScan rest false
    else false

/-- Model of `RE_OPT_UPPER_ARGUMENT` matching; the regex group `name` is the
whole token. -/
def matchUpperArgument (s : String) : Option String :=
  if upperArgScan s.data false then some s else none

/-- Model of `RE_OPT_SHORT_OPTION` matching (a dash followed by one ASCII
letter, case-insensitive); the whole token is returned (`m.group(0)`). -/
def matchShortOpt (s : String) : Option String :=
  match s.data with
  | ['-', c] => if c.isAlpha then some s else none
  | _ => none

/-- Model of `RE_OPT_LONG_OPTION` matching (two dashes followed by one or
more letters, underscores or dashes, case-insensitive); the whole token is
returned (`m.group(0)`). -/
def matchLongOpt (s : String) : Option String :=
  match s.data with
  | '-' :: '-' :: rest =>
    if rest ≠ [] ∧ rest.all (fun c => c.isAlpha || c == '_' || c == '-') then some s else none
  | _ => none

/-- Modelled from the spec: `base.RE_COMMAND_NAME` (module
`lmi.scripts.common.command.base` is not among the sources). The spec
describes the command-name token grammar as lowercase letters, digits and
dashes; the whole token is the match (`m.group(0)`). -/
def matchCommandName (s : String) : Option String :=
  if s.data ≠ [] ∧ s.data.all (fun c => c.isLower || c.isDigit || c == '-') then some s
  else none

/-- The classification cascade of `options_dict2kwargs`: the five recognized
token shapes are tried in source order and the first match yields the name to
sanitize; `none` models the `for/else` branch raising `LmiError`. -/
def classifyOptName (name : String) : Option String :=
  match matchBracketArgument name with
  | some n => some n
  | none =>
    match matchUpperArgument name with
    | some n => some n
    | none =>
      match matchShortOpt name with
      | some n => some n
      | none =>
        match matchLongOpt name with
        | some n => some n
        | none => matchCommandName name

/-- Errors raised while converting options and binding arguments
(`errors.LmiError` / `errors.LmiCommandError` with the data their messages
carry). -/
inductive BindError where
  | unconvertible (name : String)
  | clash (name newName : String)
  | unbound (cmdName argName : String)

/-- Loop body of `options_dict2kwargs`: each docopt key is classified,
sanitized and inserted, raising on an unclassifiable key or on two keys
translating to the same identifier. -/
def optionsDict2kwargsLoop :
    List (String × PyVal) → List (String × PyVal) → Except BindError (List (String × PyVal))
  | [], kwargs => .ok kwargs
  | (name, value) :: rest, kwargs =>
    match classifyOptName name with
    | none => .error (.unconvertible name)
    | some matched =>
      let newName := optNameSanitize matched
      if (kwargs.lookup newName).isSome then .error (.clash name newName)
      else optionsDict2kwargsLoop rest (kwargs ++ [(newName, value)])

/-- Model of `options_dict2kwargs` (`command.py` lines 64-97). -/
def optionsDict2kwargs (options : List (String × PyVal)) :
    Except BindError (List (String × PyVal)) :=
  optionsDict2kwargsLoop options []

/-! ## Argument binding (`LmiEndPointCommand._make_end_point_args`,
`command.py` lines 226-259) -/

/-- The final loop of `_make_end_point_args`: for each formal parameter of the
action after the first (the connection), pop the corresponding kwarg into the
positional list, raising `LmiCommandError` naming the command and the
parameter when it is absent. -/
def bindPositional (cmdName : String) :
    List String → List (String × PyVal) →
    Except BindError (List PyVal × List (String × PyVal))
  | [], kwargs => .ok ([], kwargs)
  | argName :: rest, kwargs =>
    match kwargs.lookup argName with
    | none => .error (.unbound cmdName argName)
    | some v =>
      match bindPositional cmdName rest (kwargs.eraseP (fun r => r.1 == argName)) with
      | .error e => .error e
      | .ok (args, kw) => .ok (v :: args, kw)

/-- Model of `_make_end_point_args`: convert the docopt dictionary to kwargs;
when the action has no `**kwargs` catch-all (`argspec.keywords is None`),
drop the kwargs no formal parameter expects; then bind the action's
parameters after the first, in declared order. -/
def makeEndPointArgs (cmdName : String) (argspecArgs : List String) (hasKeywords : Bool)
    (options : List (String × PyVal)) :
    Except BindError (List PyVal × List (String × PyVal)) :=
  match optionsDict2kwargs options with
  | .error e => .error e
  | .ok kwargs =>
    let expected := argspecArgs.drop 1
    let kwargs2 := if hasKeywords then kwargs else kwargs.filter (fun r => expected.contains r.1)
    bindPositional cmdName expected kwargs2

/-! ## Multiplexer dispatch (`LmiCommandMultiplexer.run_subcommand`,
`command.py` lines 126-144) -/

/-- Outcome of `run_subcommand`: what was written to the error stream, which
child command (if any) was run, and the returned exit code. -/
structure MuxResult where
  stderrLines : List String
  invoked : Option String
  exitCode : Int

/-- Model of `run_subcommand`: look the name up in `child_commands()`; on a
hit, run that child and return its exit code; on a `KeyError`, write the
usage text to `stderr` and return `1`. -/
def runSubcommand (children : List (String × (List String → Int))) (usage : String)
    (cmdName : String) (args : List String) : MuxResult :=
  match children.lookup cmdName with
  | some childRun => { stderrLines := [], invoked := some cmdName, exitCode := childRun args }
  | none => { stderrLines := [usage], invoked := none, exitCode := 1 }

/-! ## Lister policy (`LmiLister`, `command.py` lines 397-424) -/

/-- Model of `LmiLister.take_action`: run the associated function; when
`COLUMNS` is not declared (`get_columns()` returns `None`) the first produced
row is consumed as the header (`next(res)`, raising `StopIteration` on an
empty result); otherwise the declared columns head the pair. -/
def listerTakeAction (execute : Conn → Except String (List (List PyVal)))
    (columns : Option (List PyVal)) (conn : Conn) :
    Except String (List PyVal × List (List PyVal)) :=
  match execute conn with
  | .error e => .error e
  | .ok res =>
    match columns with
    | some cols => .ok (cols, res)
    | none =>
      match res with
      | [] => .error "StopIteration"
      | first :: rest => .ok (first, rest)

/-- Loop of `LmiLister.process_session`: one `take_action` plus one
`produce_output` per connection, with no exception handling around either. -/
def listerLoop (takeAct : Conn → Except String (List PyVal × List (List PyVal)))
    (acc : List (List PyVal × List (List PyVal))) :
    List Conn → Except String (List (List PyVal × List (List PyVal)))
  | [] => .ok acc
  | c :: rest =>
    match takeAct c with
    | .ok out => listerLoop takeAct (acc ++ [out]) rest
    | .error e => .error e

/-- Model of `LmiLister.process_session`: the list of `(column_names, data)`
pairs handed to `produce_output`, one per connection, and the final
`return 0`. An error raised by the action is not caught here and escapes. -/
def listerProcessSession (execute : Conn → Except String (List (List PyVal)))
    (columns : Option (List PyVal)) (session : Session) :
    Except String (List (List PyVal × List (List PyVal)) × Int) :=
  match listerLoop (listerTakeAction execute columns) [] session.connections with
  | .error e => .error e
  | .ok outs => .ok (outs, 0)

/-! ## ShowInstance policy (`LmiShowInstance`, `command.py` lines 475-510) -/

/-- Model of `LmiShowInstance.take_action`: run the associated function, then
render its result; either step may raise. -/
def showInstanceTakeAction (execute : Conn → Except String PyVal)
    (render : PyVal → Except String (List String × List PyVal)) (conn : Conn) :
    Except String (List String × List PyVal) :=
  match execute conn with
  | .error e => .error e
  | .ok res => render res

/-- Loop of `LmiShowInstance.process_session`: each connection's
`take_action` output is produced on success; an exception is caught and
appended to the `failures` list, and the loop continues. -/
def showInstanceLoop (takeAct : Conn → Except String (List String × List PyVal)) :
    List Conn → List (List String × List PyVal) × List (String × String) →
    List (List String × List PyVal) × List (String × String)
  | [], acc => acc
  | c :: rest, (outs, fails) =>
    match takeAct c with
    | .ok o => showInstanceLoop takeAct rest (outs ++ [o], fails)
    | .error e => showInstanceLoop takeAct rest (outs, fails ++ [(c.hostname, e)])

/-- Result of `LmiShowInstance.process_session`: the successful
`produce_output` payloads, the collected `(hostname, error)` failures, the
failure table handed to the CSV formatter when any failure occurred, and the
`return 0` exit code. -/
structure ShowSessionResult where
  outputs : List (List String × List PyVal)
  failures : List (String × String)
  failureReport : Option ((String × String) × List (String × String))
  exitCode : Int

/-- Model of `LmiShowInstance.process_session`. Note that it never consults
`session.get_unconnected()`: only connections whose `take_action` raised are
recorded as failures. -/
def showInstanceProcessSession (execute : Conn → Except String PyVal)
    (render : PyVal → Except String (List String × List PyVal)) (session : Session) :
    ShowSessionResult :=
  let (outs, fails) :=
    showInstanceLoop (showInstanceTakeAction execute render) session.connections ([], [])
  { outputs := outs
    failures := fails
    failureReport := if 0 < fails.length then some (("Host", "Error"), fails) else none
    exitCode := 0 }

/-! ## CheckResult policy (`LmiCheckResult`, `command.py` lines 550-602) -/

/-- Outcome of one `LmiCheckResult.take_action` call: the `(passed, error)`
pair it returns, the arguments of the `self.check_result(args, res)` call it
made (if any), and the `self.results[hostname] = res` store it performed (if
any). Note that the first argument handed to `check_result` is the
positional-argument list `args`, not the docopt options dictionary. -/
structure CheckTakeActionResult where
  passed : Bool
  error : Option String
  checkCalls : List (PyVal × PyVal)
  stored : Option (String × PyVal)

/-- Model of `LmiCheckResult.take_action`: invoke the associated function;
on success store its result and hand `(args, res)` to `check_result`; any
exception is caught and converted to `(False, exc)`. -/
def checkResultTakeAction (execute : Conn → Except String PyVal)
    (check : PyVal → PyVal → Bool) (args : List PyVal) (conn : Conn) :
    CheckTakeActionResult :=
  match execute conn with
  | .ok res =>
    { passed := check (.list args) res
      error := none
      checkCalls := [(.list args, res)]
      stored := some (conn.hostname, res) }
  | .error e =>
    { passed := false, error := some e, checkCalls := [], stored := none }

/-- Accumulator of the `LmiCheckResult.process_session` loop: the
`results[0]` (passed) and `results[1]` (failed) lists, the hostnames the
action was invoked for, the `check_result` calls made, and the stored
`self.results` entries. -/
structure CheckLoopAcc where
  passed : List (String × Option String)
  failed : List (String × Option String)
  invoked : List String
  checkCalls : List (PyVal × PyVal)
  results : List (String × PyVal)

/-- Loop of `LmiCheckResult.process_session`: every connection in the session
gets exactly one `take_action` call and contributes one record to the passed
or failed list. -/
def checkResultLoop (takeAct : Conn → CheckTakeActionResult) :
    List Conn → CheckLoopAcc → CheckLoopAcc
  | [], acc => acc
  | c :: rest, acc =>
    let r := takeAct c
    checkResultLoop takeAct rest
      { passed := if r.passed then acc.passed ++ [(c.hostname, r.error)] else acc.passed
        failed := if r.passed then acc.failed else acc.failed ++ [(c.hostname, r.error)]
        invoked := acc.invoked ++ [c.hostname]
        checkCalls := acc.checkCalls ++ r.checkCalls
        results := acc.results ++ r.stored.toList }

/-- The failure-table entry built for one failed run: a caught exception is
shown as such; a `None` error (the check simply returned `False`) becomes
`"failed"`, extended with an `expected != actual` hint when verbosity is at
least INFO and the generated `check_result` carries an `expected` attribute.
`expectedRepr` and `resultRepr` abstract the `%s` formatting of the expected
value and of `self.results[hostname]`. -/
def checkFailureEntry (verboseInfo : Bool) (expectedRepr : Option String)
    (resultRepr : String → String) : String × Option String → String × String
  | (host, some err) => (host, err)
  | (host, none) =>
    match expectedRepr with
    | some er =>
      if verboseInfo then (host, "failed" ++ " (" ++ er ++ " != " ++ resultRepr host ++ ")")
      else (host, "failed")
    | none => (host, "failed")

/-- Result of `LmiCheckResult.process_session`. `failedRuns` is
`len(results[1]) + len(session.get_unconnected())`; `failureReport` is the
`(('Name', 'Error'), data)` payload handed to `produce_output` when
`failed_runs` is nonzero. The method body contains no `return` statement, so
its value is Python `None`, modelled as `exitCode = none`. -/
structure CheckSessionResult where
  passed : List (String × Option String)
  failed : List (String × Option String)
  invoked : List String
  checkCalls : List (PyVal × PyVal)
  results : List (String × PyVal)
  failedRuns : Nat
  failureReport : Option ((String × String) × List (String × String))
  exitCode : Option Int

/-- Model of `LmiCheckResult.process_session` (`command.py` lines 572-602). -/
def checkResultProcessSession (execute : Conn → Except String PyVal)
    (check : PyVal → PyVal → Bool) (args : List PyVal)
    (verboseInfo : Bool) (expectedRepr : Option String) (resultRepr : String → String)
    (session : Session) : CheckSessionResult :=
  let acc := checkResultLoop (checkResultTakeAction execute check args)
    session.connections ⟨[], [], [], [], []⟩
  let failedRuns := acc.failed.length + session.unconnected.length
  let data := session.unconnected.map (fun h => (h, "failed to connect"))
    ++ acc.failed.map (checkFailureEntry verboseInfo expectedRepr resultRepr)
  { passed := acc.passed
    failed := acc.failed
    invoked := acc.invoked
    checkCalls := acc.checkCalls
    results := acc.results
    failedRuns := failedRuns
    failureReport := if 0 < failedRuns then some (("Name", "Error"), data) else none
    exitCode := none }

/-! ## CheckResult meta class (`CheckResultMetaClass.__new__`,
`meta.py` lines 321-347) -/

/-- The unwrapping step shared by both generated `check_result` variants:
`if isinstance(result, LMIReturnValue): result = result.rval` — one level
only. -/
def checkResultUnwrap : PyVal → PyVal
  | .lmiReturnValue v => v
  | r => r

/-- The `check_result` generated for a callable `EXPECT`: unwrap an
`LMIReturnValue` result once, then call the predicate with the options value
and the (unwrapped) result. -/
def checkResultOfPredicate (expect : PyVal → PyVal → Bool) (options result : PyVal) : Bool :=
  expect options (checkResultUnwrap result)

/-- The `check_result` generated for a non-callable `EXPECT`: unwrap an
`LMIReturnValue` result once, then test `expect == result`. Python `==`
dispatches to the operands' classes and is abstracted as `eqFn`. -/
def checkResultOfValue (eqFn : PyVal → PyVal → Bool) (expect : PyVal)
    (_options result : PyVal) : Bool :=
  eqFn expect (checkResultUnwrap result)

/-! ## ShowInstance meta class (`ShowInstanceMetaClass`,
`meta.py` lines 184-307) -/

/-- A CIM instance as the default renderer reads it: the ordered
`inst.properties` mapping. -/
structure LmiInstance where
  properties : List (String × PyVal)

/-- Loop of the `_render` closure built by `_make_render_all_properties`:
every property contributes its name and its value, a `None` value being
replaced by an empty string. -/
def renderAllLoop :
    List (String × PyVal) → List String × List PyVal → List String × List PyVal
  | [], acc => acc
  | (n, v) :: rest, (ns, vs) =>
    renderAllLoop rest (ns ++ [n], vs ++ [match v with | .pyNone => .str "" | w => w])

/-- The all-properties renderer stored by `_make_render_all_properties`:
returns `(column_names, values)` covering every property of the instance in
order. -/
def renderAllProperties (inst : LmiInstance) : List String × List PyVal :=
  renderAllLoop inst.properties ([], [])

/-- One entry of a declared `PROPERTIES` list: either a property name or a
`(label, render-function)` pair. -/
inductive PropSpec where
  | name (s : String)
  | pair (label : String) (fn : LmiInstance → PyVal)

/-- Which renderer ends up as the class's `render` attribute. The tags stand
for the closures built in `meta.py`: `allProperties` is `renderAllProperties`
above, `dynamic` is `_render_dynamic`, `withProperties` is the closure of
`_make_render_with_properties`. -/
inductive RenderFn where
  | allProperties
  | dynamic
  | withProperties (props : List PropSpec)

/-- The class dictionary slot for `render`: `none` models both an absent key
and the Python value `None`. -/
structure ClassDict where
  render : Option RenderFn

/-- Model of `ShowInstanceMetaClass._make_render_all_properties`: when
`render` is abstract in the bases it stores the all-properties renderer into
the class dictionary; the method body has no `return` statement, so the value
of the call itself is Python `None` — the second component. -/
def makeRenderAllProperties (renderAbstractInBases : Bool) (dcl : ClassDict) :
    ClassDict × Option RenderFn :=
  (if renderAbstractInBases then { dcl with render := some .allProperties } else dcl, none)

/-- Model of the `render`-selection logic of `ShowInstanceMetaClass.__new__`
(`meta.py` lines 287-307). In the default branch the source executes
`dcl['render'] = mcs._make_render_all_properties(bases, dcl)`: the helper is
run for its side effect on `dcl` and its return value is then assigned over
that same key. -/
def showInstanceMetaNew (renderAbstractInBases : Bool) (dynamicProperties : Bool)
    (properties : Option (List PropSpec)) (dcl : ClassDict) : Except String ClassDict :=
  if dynamicProperties ∧ properties.isSome then
    .error "DYNAMIC_PROPERTIES and PROPERTIES are mutually exclusive"
  else
    match properties, dynamicProperties with
    | none, false =>
      let pair := makeRenderAllProperties renderAbstractInBases dcl
      .ok { pair.1 with render := pair.2 }
    | none, true => .ok { dcl with render := some .dynamic }
    | some props, _ => .ok { dcl with render := some (.withProperties props) }

/-! ## Characterization lemmas for the session loops -/

theorem showInstanceLoop_eq (takeAct : Conn → Except String (List String × List PyVal)) :
    ∀ (cs : List Conn) (outs : List (List String × List PyVal))
      (fails : List (String × String)),
    showInstanceLoop takeAct cs (outs, fails)
      = (outs ++ cs.filterMap (fun c => (takeAct c).toOption),
         fails ++ cs.filterMap (fun c =>
           match takeAct c with
           | .error e => some (c.hostname, e)
           | .ok _ => none)) := by
  intro cs
  induction cs with
  | nil => intro outs fails; simp [showInstanceLoop]
  | cons c rest ih =>
    intro outs fails
    cases h : takeAct c with
    | ok o => simp [showInstanceLoop, h, ih, Except.toOption]
    | error e => simp [showInstanceLoop, h, ih, Except.toOption]

theorem checkResultLoop_eq (takeAct : Conn → CheckTakeActionResult) :
    ∀ (cs : List Conn) (acc : CheckLoopAcc),
    checkResultLoop takeAct cs acc =
      { passed := acc.passed ++ cs.filterMap (fun c =>
          if (takeAct c).passed then some (c.hostname, (takeAct c).error) else none)
        failed := acc.failed ++ cs.filterMap (fun c =>
          if (takeAct c).passed then none else some (c.hostname, (takeAct c).error))
        invoked := acc.invoked ++ cs.map (fun c => c.hostname)
        checkCalls := acc.checkCalls ++ cs.flatMap (fun c => (takeAct c).checkCalls)
        results := acc.results ++ cs.flatMap (fun c => (takeAct c).stored.toList) } := by
  intro cs
  induction cs with
  | nil => intro acc; simp [checkResultLoop]
  | cons c rest ih =>
    intro acc
    by_cases hb : (takeAct c).passed
    · simp [checkResultLoop, hb, ih]
    · simp [checkResultLoop, hb, ih]

theorem listerLoop_ok (takeAct : Conn → Except String (List PyVal × List (List PyVal)))
    (out : Conn → List PyVal × List (List PyVal)) :
    ∀ (cs : List Conn) (acc : List (List PyVal × List (List PyVal))),
    (∀ c ∈ cs, takeAct c = .ok (out c)) →
    listerLoop takeAct acc cs = .ok (acc ++ cs.map out) := by
  intro cs
  induction cs with
  | nil => intro acc _; simp [listerLoop]
  | cons c rest ih =>
    intro acc h
    have hc : takeAct c = .ok (out c) := h c (List.mem_cons_self c rest)
    have hrest : ∀ d ∈ rest, takeAct d = .ok (out d) :=
      fun d hd => h d (List.mem_cons_of_mem c hd)
    simp [listerLoop, hc, ih (acc ++ [out c]) hrest]

/-! ## Lookup lemmas used for argument binding -/

theorem lookup_filter_contains (names : List String) :
    ∀ (l : List (String × PyVal)) (p : String), p ∈ names →
    (l.filter (fun r => names.contains r.1)).lookup p = l.lookup p := by
  intro l
  induction l with
  | nil => intro p _; simp
  | cons kv t ih =>
    obtain ⟨k, v⟩ := kv
    intro p hp
    have ih2 : List.lookup p (List.filter (fun r => decide (r.1 ∈ names)) t)
        = List.lookup p t := by simpa using ih p hp
    by_cases hmem : k ∈ names
    · by_cases hpk : p = k
      · subst hpk
        simp [List.filter_cons, hmem, List.lookup]
      · simp [List.filter_cons, hmem, List.lookup, beq_false_of_ne hpk, ih2]
    · have hpk : p ≠ k := fun h => hmem (h ▸ hp)
      simp [List.filter_cons, hmem, List.lookup, beq_false_of_ne hpk, ih2]

theorem lookup_eraseP_ne (q : String) :
    ∀ (l : List (String × PyVal)) (p : String), p ≠ q →
    (l.eraseP (fun r => r.1 == q)).lookup p = l.lookup p := by
  intro l
  induction l with
  | nil => intro p _; simp
  | cons kv t ih =>
    obtain ⟨k, v⟩ := kv
    intro p hp
    by_cases hk : k = q
    · have hpk : p ≠ k := fun h => hp (h.trans hk)
      simp [List.eraseP_cons, hk, List.lookup, beq_false_of_ne hpk, beq_false_of_ne hp]
    · by_cases hpk : p = k
      · subst hpk
        simp [List.eraseP_cons, beq_false_of_ne hk, List.lookup]
      · simp [List.eraseP_cons, beq_false_of_ne hk, List.lookup, beq_false_of_ne hpk,
          ih p hp]

/-! ## Specification of positional binding -/

theorem bindPositional_spec (cmd : String) :
    ∀ (expected : List String) (kwargs : List (String × PyVal)), expected.Nodup →
    ((∀ p ∈ expected, (kwargs.lookup p).isSome) →
      ∃ rest, bindPositional cmd expected kwargs
        = .ok (expected.map (fun p => (kwargs.lookup p).getD .pyNone), rest))
  ∧ ((∃ p ∈ expected, kwargs.lookup p = none) →
      ∃ p, p ∈ expected ∧ kwargs.lookup p = none ∧
        bindPositional cmd expected kwargs = .error (.unbound cmd p)) := by
  intro expected
  induction expected with
  | nil =>
    intro kwargs _
    constructor
    · intro _; exact ⟨kwargs, rfl⟩
    · rintro ⟨p, hp, _⟩; simp at hp
  | cons a rest ih =>
    intro kwargs hnd
    have hna : a ∉ rest := (List.nodup_cons.mp hnd).1
    have hndr : rest.Nodup := (List.nodup_cons.mp hnd).2
    cases hla : kwargs.lookup a with
    | none =>
      constructor
      · intro hcov
        exact absurd (hcov a (List.mem_cons_self a rest)) (by simp [hla])
      · intro _
        refine ⟨a, List.mem_cons_self a rest, hla, ?_⟩
        simp [bindPositional, hla]
    | some v =>
      have herase : ∀ p ∈ rest,
          (kwargs.eraseP (fun r => r.1 == a)).lookup p = kwargs.lookup p := by
        intro p hpr
        exact lookup_eraseP_ne a kwargs p (fun h => hna (h ▸ hpr))
      obtain ⟨ih1, ih2⟩ := ih (kwargs.eraseP (fun r => r.1 == a)) hndr
      constructor
      · intro hcov
        have hcov2 : ∀ p ∈ rest,
            ((kwargs.eraseP (fun r => r.1 == a)).lookup p).isSome := by
          intro p hpr
          rw [herase p hpr]
          exact hcov p (List.mem_cons_of_mem a hpr)
        obtain ⟨others, hb⟩ := ih1 hcov2
        refine ⟨others, ?_⟩
        have hmapeq : rest.map
            (fun p => (((kwargs.eraseP (fun r => r.1 == a)).lookup p).getD .pyNone))
            = rest.map (fun p => ((kwargs.lookup p).getD .pyNone)) :=
          List.map_congr_left (fun p hpr => by rw [herase p hpr])
        simp [bindPositional, hla, hb, hmapeq]
      · rintro ⟨p, hpmem, hpnone⟩
        rcases List.mem_cons.mp hpmem with hpa | hpr
        · subst hpa
          rw [hla] at hpnone
          cases hpnone
        · have hpnone2 : (kwargs.eraseP (fun r => r.1 == a)).lookup p = none := by
            rw [herase p hpr]; exact hpnone
          obtain ⟨p2, hp2mem, hp2none, hb⟩ := ih2 ⟨p, hpr, hpnone2⟩
          refine ⟨p2, List.mem_cons_of_mem a hp2mem, ?_, ?_⟩
          · rw [← herase p2 hp2mem]; exact hp2none
          · simp [bindPositional, hla, hb]

theorem bindPositional_lookup_spec (cmd : String) (expected : List String)
    (kwargs kwargs2 : List (String × PyVal)) (hnd : expected.Nodup)
    (hlook : ∀ p ∈ expected, kwargs2.lookup p = kwargs.lookup p) :
    ((∀ p ∈ expected, (kwargs.lookup p).isSome) →
      ∃ rest, bindPositional cmd expected kwargs2
        = .ok (expected.map (fun p => (kwargs.lookup p).getD .pyNone), rest))
  ∧ ((∃ p ∈ expected, kwargs.lookup p = none) →
      ∃ p, p ∈ expected ∧ kwargs.lookup p = none ∧
        bindPositional cmd expected kwargs2 = .error (.unbound cmd p)) := by
  obtain ⟨h1, h2⟩ := bindPositional_spec cmd expected kwargs2 hnd
  have hmap : expected.map (fun p => ((kwargs2.lookup p).getD .pyNone))
      = expected.map (fun p => ((kwargs.lookup p).getD .pyNone)) :=
    List.map_congr_left (fun p hp => by rw [hlook p hp])
  constructor
  · intro hcov
    obtain ⟨rest, hb⟩ := h1 (fun p hp => by rw [hlook p hp]; exact hcov p hp)
    exact ⟨rest, by rw [hb, hmap]⟩
  · rintro ⟨p, hpmem, hpnone⟩
    obtain ⟨p2, hp2mem, hp2none, hb⟩ :=
      h2 ⟨p, hpmem, by rw [hlook p hpmem]; exact hpnone⟩
    exact ⟨p2, hp2mem, by rw [← hlook p2 hp2mem]; exact hp2none, hb⟩

theorem makeEndPointArgs_eq_bind (cmd : String) (argspecArgs : List String)
    (hasKeywords : Bool) (options kwargs : List (String × PyVal))
    (hkw : optionsDict2kwargs options = .ok kwargs) :
    makeEndPointArgs cmd argspecArgs hasKeywords options
      = bindPositional cmd (argspecArgs.drop 1)
          (if hasKeywords then kwargs
           else kwargs.filter (fun r => (argspecArgs.drop 1).contains r.1)) := by
  unfold makeEndPointArgs
  rw [hkw]

/-- Claim C7: for every end-point command and parsed option map, if some
formal parameter of the action other than the first (the connection) has no
corresponding normalized option name, `_make_end_point_args` raises an
`LmiCommandError` naming the command and a missing parameter; if all such
parameters are covered, it produces the positional arguments in the action's
declared parameter order. -/
theorem make_end_point_args_binds_or_reports_missing
    (cmd : String) (argspecArgs : List String) (hasKeywords : Bool)
    (options kwargs : List (String × PyVal))
    (hkw : optionsDict2kwargs options = .ok kwargs)
    (hnd : (argspecArgs.drop 1).Nodup) :
    ((∀ p ∈ argspecArgs.drop 1, (kwargs.lookup p).isSome) →
      ∃ rest, makeEndPointArgs cmd argspecArgs hasKeywords options
        = .ok ((argspecArgs.drop 1).map (fun p => (kwargs.lookup p).getD .pyNone), rest))
  ∧ ((∃ p ∈ argspecArgs.drop 1, kwargs.lookup p = none) →
      ∃ p, p ∈ argspecArgs.drop 1 ∧ kwargs.lookup p = none ∧
        makeEndPointArgs cmd argspecArgs hasKeywords options
          = .error (.unbound cmd p)) := by
  rw [makeEndPointArgs_eq_bind cmd argspecArgs hasKeywords options kwargs hkw]
  cases hasKeywords with
  | true =>
    simpa using bindPositional_lookup_spec cmd (argspecArgs.drop 1) kwargs kwargs hnd
      (fun _ _ => rfl)
  | false =>
    simpa using bindPositional_lookup_spec cmd (argspecArgs.drop 1) kwargs
      (kwargs.filter (fun r => (argspecArgs.drop 1).contains r.1)) hnd
      (fun p hp => lookup_filter_contains (argspecArgs.drop 1) kwargs p hp)

/-- Witness for C7: a concrete bracket argument and an uppercase argument
bind, in declared order, to the two action parameters after the connection. -/
theorem make_end_point_args_binds_or_reports_missing_witness :
    optionsDict2kwargs [("<device>", PyVal.str "sda"), ("DEPTH", PyVal.int 2)]
      = .ok [("device", PyVal.str "sda"), ("depth", PyVal.int 2)]
  ∧ ∃ rest,
      makeEndPointArgs "raid" ["connection", "device", "depth"] false
        [("<device>", PyVal.str "sda"), ("DEPTH", PyVal.int 2)]
      = .ok ([PyVal.str "sda", PyVal.int 2], rest) := by
  constructor
  · rfl
  · have h := (make_end_point_args_binds_or_reports_missing "raid"
      ["connection", "device", "depth"] false
      [("<device>", PyVal.str "sda"), ("DEPTH", PyVal.int 2)]
      [("device", PyVal.str "sda"), ("depth", PyVal.int 2)] rfl (by decide)).1
      (by decide)
    obtain ⟨rest, hr⟩ := h
    refine ⟨rest, ?_⟩
    have hmap : (["connection", "device", "depth"].drop 1).map
        (fun p => (([("device", PyVal.str "sda"), ("depth", PyVal.int 2)].lookup p).getD
          .pyNone))
        = [PyVal.str "sda", PyVal.int 2] := rfl
    rw [hmap] at hr
    exact hr

/-! ## Idempotence of option-name sanitization (C9) -/

theorem uint32_le_iff_toNat_le (a b : UInt32) : a ≤ b ↔ a.toNat ≤ b.toNat := by
  simp [UInt32.le_def, BitVec.le_def, UInt32.toNat]

theorem char_toNat_ofNat_valid (n : Nat) (h : n.isValidChar) :
    (Char.ofNat n).toNat = n := by
  rw [Char.ofNat, dif_pos h]
  simp [Char.ofNatAux, Char.toNat, UInt32.toNat]

theorem char_isUpper_iff (c : Char) :
    c.isUpper = true ↔ 65 ≤ c.toNat ∧ c.toNat ≤ 90 := by
  have h65 : (65 : UInt32).toNat = 65 := by decide
  have h90 : (90 : UInt32).toNat = 90 := by decide
  simp only [Char.isUpper, ge_iff_le, Bool.and_eq_true, decide_eq_true_eq,
    uint32_le_iff_toNat_le, Char.toNat, h65, h90]

theorem char_isLower_iff (c : Char) :
    c.isLower = true ↔ 97 ≤ c.toNat ∧ c.toNat ≤ 122 := by
  have h97 : (97 : UInt32).toNat = 97 := by decide
  have h122 : (122 : UInt32).toNat = 122 := by decide
  simp only [Char.isLower, ge_iff_le, Bool.and_eq_true, decide_eq_true_eq,
    uint32_le_iff_toNat_le, Char.toNat, h97, h122]

theorem char_toLower_of_upper (c : Char) (h : 65 ≤ c.toNat ∧ c.toNat ≤ 90) :
    Char.toLower c = Char.ofNat (c.toNat + 32) := by
  show (if Char.toNat c ≥ 65 ∧ Char.toNat c ≤ 90 then Char.ofNat (Char.toNat c + 32) else c)
    = Char.ofNat (c.toNat + 32)
  rw [if_pos ⟨h.1, h.2⟩]

theorem char_toLower_of_ge97 (c : Char) (h : 97 ≤ c.toNat) : Char.toLower c = c := by
  show (if Char.toNat c ≥ 65 ∧ Char.toNat c ≤ 90 then Char.ofNat (Char.toNat c + 32) else c)
    = c
  rw [if_neg]
  rintro ⟨_, h90⟩
  omega

theorem sanitize_char_shape (c : Char) :
    Char.toLower (if c.isAlpha then c else '_') = '_'
  ∨ (97 ≤ (Char.toLower (if c.isAlpha then c else '_')).toNat
      ∧ (Char.toLower (if c.isAlpha then c else '_')).toNat ≤ 122) := by
  by_cases ha : c.isAlpha
  · rw [if_pos ha]
    rcases Bool.or_eq_true _ _ |>.mp (by simpa [Char.isAlpha] using ha) with hu | hl
    · right
      obtain ⟨h65, h90⟩ := (char_isUpper_iff c).mp hu
      rw [char_toLower_of_upper c ⟨h65, h90⟩,
        char_toNat_ofNat_valid (c.toNat + 32) (Or.inl (by omega))]
      omega
    · right
      obtain ⟨h97, h122⟩ := (char_isLower_iff c).mp hl
      rw [char_toLower_of_ge97 c h97]
      omega
  · rw [if_neg ha]
    left
    decide

theorem sanitize_char_fixed (d : Char)
    (h : d = '_' ∨ (97 ≤ d.toNat ∧ d.toNat ≤ 122)) :
    Char.toLower (if d.isAlpha then d else '_') = d := by
  rcases h with h | ⟨h97, h122⟩
  · subst h
    decide
  · have halpha : d.isAlpha = true := by
      simp [Char.isAlpha, (char_isLower_iff d).mpr ⟨h97, h122⟩]
    rw [if_pos halpha]
    exact char_toLower_of_ge97 d h97

/-- Claim C9: option-name sanitization is idempotent — sanitizing an
already-sanitized name returns it unchanged, for every string. -/
theorem opt_name_sanitize_idempotent (s : String) :
    optNameSanitize (optNameSanitize s) = optNameSanitize s := by
  show String.mk ((((s.data.map (fun c => if c.isAlpha then c else '_')).map
      Char.toLower).map (fun c => if c.isAlpha then c else '_')).map Char.toLower)
    = String.mk ((s.data.map (fun c => if c.isAlpha then c else '_')).map Char.toLower)
  apply congrArg String.mk
  simp only [List.map_map]
  refine List.map_congr_left (fun c _ => ?_)
  simp only [Function.comp]
  exact sanitize_char_fixed _ (sanitize_char_shape c)

/-- Witness for C9 at a concrete long-option token. -/
theorem opt_name_sanitize_idempotent_witness :
    optNameSanitize (optNameSanitize "--some-option") = optNameSanitize "--some-option" :=
  opt_name_sanitize_idempotent "--some-option"

/-! ## Unknown subcommand dispatch (C8) -/

/-- Claim C8: for every multiplexer command and every subcommand name not
present in its child map, dispatch writes the current level's usage text to
the error stream, returns exit code `1` instead of raising, and invokes no
child command. -/
theorem run_subcommand_unknown_child
    (children : List (String × (List String → Int))) (usage cmdName : String)
    (args : List String) (h : children.lookup cmdName = none) :
    runSubcommand children usage cmdName args
      = { stderrLines := [usage], invoked := none, exitCode := 1 } := by
  unfold runSubcommand
  rw [h]

/-- Witness for C8: resolving `"bogus"` against children `list` and `show`
prints usage to stderr, runs nothing and exits `1`. -/
theorem run_subcommand_unknown_child_witness :
    (([("list", fun _ => (0 : Int)), ("show", fun _ => (0 : Int))]
        : List (String × (List String → Int))).lookup "bogus" = none)
  ∧ runSubcommand [("list", fun _ => (0 : Int)), ("show", fun _ => (0 : Int))]
      "usage text" "bogus" []
      = { stderrLines := ["usage text"], invoked := none, exitCode := 1 } :=
  ⟨rfl, run_subcommand_unknown_child _ _ _ _ rfl⟩

/-! ## Single-level unwrapping in the generated check_result (C10) -/

/-- Counterexample for C10 as stated: with a predicate `EXPECT` that tests
whether its result argument is an `LMIReturnValue`, an action returning an
`LMIReturnValue` wrapping `v = LMIReturnValue(0)` passes while an action
returning `v` directly fails — the unwrapping is one level, not recursive,
so the claimed equivalence fails for nested wrappers. -/
theorem check_result_unwrap_not_recursive :
    checkResultOfPredicate
      (fun _ r => match r with | .lmiReturnValue _ => true | _ => false)
      .pyNone (.lmiReturnValue (.lmiReturnValue (.int 0))) = true
  ∧ checkResultOfPredicate
      (fun _ r => match r with | .lmiReturnValue _ => true | _ => false)
      .pyNone (.lmiReturnValue (.int 0)) = false :=
  ⟨rfl, rfl⟩

/-- Claim C10 (amended): the generated `check_result` unwraps an
`LMIReturnValue` result exactly one level to its `rval` before comparing;
hence for every `v` that is not itself an `LMIReturnValue`, an action
returning `LMIReturnValue(v)` passes iff an action returning `v` directly
passes — for both the predicate and the plain-value form of `EXPECT`. -/
theorem check_result_unwraps_single_level
    (p : PyVal → PyVal → Bool) (eqFn : PyVal → PyVal → Bool)
    (expect options v : PyVal)
    (h : ∀ w, v ≠ PyVal.lmiReturnValue w) :
    checkResultOfPredicate p options (.lmiReturnValue v)
      = checkResultOfPredicate p options v
  ∧ checkResultOfValue eqFn expect options (.lmiReturnValue v)
      = checkResultOfValue eqFn expect options v := by
  have hv : checkResultUnwrap v = v := by
    cases v with
    | lmiReturnValue w => exact absurd rfl (h w)
    | int n => rfl
    | str s => rfl
    | bool b => rfl
    | pyNone => rfl
    | list xs => rfl
    | dict xs => rfl
  have hwrap : checkResultUnwrap (.lmiReturnValue v) = v := rfl
  constructor
  · simp [checkResultOfPredicate, hwrap, hv]
  · simp [checkResultOfValue, hwrap, hv]

/-- Witness for C10 (amended) at `v = 0`. -/
theorem check_result_unwraps_single_level_witness :
    checkResultOfPredicate (fun _ r => match r with | .int 0 => true | _ => false)
      .pyNone (.lmiReturnValue (.int 0))
      = checkResultOfPredicate (fun _ r => match r with | .int 0 => true | _ => false)
        .pyNone (.int 0)
  ∧ checkResultOfValue (fun _ _ => true) (.int 0) .pyNone (.lmiReturnValue (.int 0))
      = checkResultOfValue (fun _ _ => true) (.int 0) .pyNone (.int 0) :=
  check_result_unwraps_single_level
    (fun _ r => match r with | .int 0 => true | _ => false) (fun _ _ => true)
    (.int 0) .pyNone (.int 0) (fun _ hw => PyVal.noConfusion hw)

/-! ## Error handling across the three aggregation policies (C1) -/

/-- Counterexample for C1 as stated: `LmiLister.process_session` has no
exception handler, so an error raised by the action for the first connection
propagates out of `process_session` (and the second connection is never
processed) — for the Lister policy the claim fails. -/
theorem lister_action_error_escapes_process_session :
    listerProcessSession (fun _ => .error "boom") (some [.str "Name"])
      ⟨[⟨"host-a"⟩, ⟨"host-b"⟩], []⟩ = .error "boom" := rfl

/-- Claim C1 (amended): for the ShowInstance and CheckResult policies every
action error is caught and converted into a per-connection failure record
and every connection of the session is still processed — each connection
contributes exactly one output or failure record, in session order, and both
`process_session` bodies always return normally. `LmiLister.process_session`
is excluded. -/
theorem show_and_check_convert_errors_and_process_all
    (execute : Conn → Except String PyVal)
    (render : PyVal → Except String (List String × List PyVal))
    (check : PyVal → PyVal → Bool) (args : List PyVal)
    (verboseInfo : Bool) (expectedRepr : Option String) (resultRepr : String → String)
    (session : Session) :
    (showInstanceProcessSession execute render session).exitCode = 0
  ∧ (showInstanceProcessSession execute render session).outputs
      = session.connections.filterMap
          (fun c => (showInstanceTakeAction execute render c).toOption)
  ∧ (showInstanceProcessSession execute render session).failures
      = session.connections.filterMap (fun c =>
          match showInstanceTakeAction execute render c with
          | .error e => some (c.hostname, e)
          | .ok _ => none)
  ∧ (checkResultProcessSession execute check args verboseInfo expectedRepr resultRepr
        session).invoked = session.connections.map (fun c => c.hostname)
  ∧ (checkResultProcessSession execute check args verboseInfo expectedRepr resultRepr
        session).passed
      = session.connections.filterMap (fun c =>
          if (checkResultTakeAction execute check args c).passed
          then some (c.hostname, (checkResultTakeAction execute check args c).error)
          else none)
  ∧ (checkResultProcessSession execute check args verboseInfo expectedRepr resultRepr
        session).failed
      = session.connections.filterMap (fun c =>
          if (checkResultTakeAction execute check args c).passed
          then none
          else some (c.hostname, (checkResultTakeAction execute check args c).error)) := by
  have hs := showInstanceLoop_eq (showInstanceTakeAction execute render)
    session.connections [] []
  have hc := checkResultLoop_eq (checkResultTakeAction execute check args)
    session.connections ⟨[], [], [], [], []⟩
  refine ⟨?_, ?_, ?_, ?_, ?_, ?_⟩ <;>
    simp [showInstanceProcessSession, checkResultProcessSession, hs, hc]

/-! ## Unconnected targets in the failure report (C5) -/

/-- Counterexample for C5 as stated: `LmiShowInstance.process_session` never
consults `session.get_unconnected()`. For a session with one pre-marked
unconnected target and no connections, its failure list is empty and no
failure report is produced, so the aggregate failure count is not at least
`k = 1`. -/
theorem show_instance_ignores_unconnected :
    (showInstanceProcessSession (fun _ => .ok .pyNone) (fun _ => .ok ([], []))
        ⟨[], ["unreachable"]⟩).failures.length = 0
  ∧ (showInstanceProcessSession (fun _ => .ok .pyNone) (fun _ => .ok ([], []))
        ⟨[], ["unreachable"]⟩).failureReport = none
  ∧ ¬ ((⟨[], ["unreachable"]⟩ : Session).unconnected.length
        ≤ (showInstanceProcessSession (fun _ => .ok .pyNone) (fun _ => .ok ([], []))
            ⟨[], ["unreachable"]⟩).failures.length) := by
  refine ⟨rfl, rfl, ?_⟩
  intro h
  simp [showInstanceProcessSession, showInstanceLoop] at h

/-- Claim C5 (amended): for the CheckResult policy the aggregate failure
count is at least the number of pre-marked unconnected targets, every such
target is reported with reason `"failed to connect"`, and the action is
never invoked for it. The ShowInstance policy is excluded: its report counts
only connections whose action raised. -/
theorem check_result_counts_unconnected_failures
    (execute : Conn → Except String PyVal) (check : PyVal → PyVal → Bool)
    (args : List PyVal) (verboseInfo : Bool) (expectedRepr : Option String)
    (resultRepr : String → String) (session : Session) (r : CheckSessionResult)
    (hr : r = checkResultProcessSession execute check args verboseInfo expectedRepr
      resultRepr session)
    (hdisj : ∀ h ∈ session.unconnected,
      h ∉ session.connections.map (fun c => c.hostname)) :
    session.unconnected.length ≤ r.failedRuns
  ∧ (∀ h ∈ session.unconnected, ∃ data,
      r.failureReport = some (("Name", "Error"), data)
      ∧ (h, "failed to connect") ∈ data)
  ∧ (∀ h ∈ session.unconnected, h ∉ r.invoked) := by
  have hc := checkResultLoop_eq (checkResultTakeAction execute check args)
    session.connections ⟨[], [], [], [], []⟩
  subst hr
  refine ⟨?_, ?_, ?_⟩
  · show session.unconnected.length
      ≤ (checkResultLoop (checkResultTakeAction execute check args)
          session.connections ⟨[], [], [], [], []⟩).failed.length
        + session.unconnected.length
    exact Nat.le_add_left _ _
  · intro h hmem
    have hpos : 0 < (checkResultLoop (checkResultTakeAction execute check args)
        session.connections ⟨[], [], [], [], []⟩).failed.length
        + session.unconnected.length :=
      Nat.lt_of_lt_of_le (List.length_pos.mpr (List.ne_nil_of_mem hmem))
        (Nat.le_add_left _ _)
    refine ⟨session.unconnected.map (fun x => (x, "failed to connect"))
        ++ (checkResultLoop (checkResultTakeAction execute check args)
            session.connections ⟨[], [], [], [], []⟩).failed.map
          (checkFailureEntry verboseInfo expectedRepr resultRepr), ?_, ?_⟩
    · show (if 0 < (checkResultLoop (checkResultTakeAction execute check args)
            session.connections ⟨[], [], [], [], []⟩).failed.length
            + session.unconnected.length
          then some (("Name", "Error"),
            session.unconnected.map (fun x => (x, "failed to connect"))
            ++ (checkResultLoop (checkResultTakeAction execute check args)
                session.connections ⟨[], [], [], [], []⟩).failed.map
              (checkFailureEntry verboseInfo expectedRepr resultRepr))
          else none)
        = some (("Name", "Error"),
            session.unconnected.map (fun x => (x, "failed to connect"))
            ++ (checkResultLoop (checkResultTakeAction execute check args)
                session.connections ⟨[], [], [], [], []⟩).failed.map
              (checkFailureEntry verboseInfo expectedRepr resultRepr))
      rw [if_pos hpos]
    · exact List.mem_append_left _
        (List.mem_map_of_mem (fun x => (x, "failed to connect")) hmem)
  · intro h hmem
    have hinv : (checkResultProcessSession execute check args verboseInfo expectedRepr
        resultRepr session).invoked = session.connections.map (fun c => c.hostname) := by
      show (checkResultLoop (checkResultTakeAction execute check args)
          session.connections ⟨[], [], [], [], []⟩).invoked
        = session.connections.map (fun c => c.hostname)
      rw [hc]
      simp
    rw [hinv]
    exact hdisj h hmem

/-- Witness for C5 (amended): one connected host and one unconnected target. -/
theorem check_result_counts_unconnected_failures_witness :
    1 ≤ (checkResultProcessSession (fun _ => .ok (.int 0)) (fun _ _ => true) []
        false none (fun _ => "") ⟨[⟨"host-a"⟩], ["host-b"]⟩).failedRuns
  ∧ (∃ data,
      (checkResultProcessSession (fun _ => .ok (.int 0)) (fun _ _ => true) []
        false none (fun _ => "") ⟨[⟨"host-a"⟩], ["host-b"]⟩).failureReport
        = some (("Name", "Error"), data)
      ∧ ("host-b", "failed to connect") ∈ data)
  ∧ "host-b" ∉ (checkResultProcessSession (fun _ => .ok (.int 0)) (fun _ _ => true) []
      false none (fun _ => "") ⟨[⟨"host-a"⟩], ["host-b"]⟩).invoked := by
  obtain ⟨h1, h2, h3⟩ := check_result_counts_unconnected_failures
    (fun _ => .ok (.int 0)) (fun _ _ => true) [] false none (fun _ => "")
    ⟨[⟨"host-a"⟩], ["host-b"]⟩ _ rfl (by decide)
  exact ⟨h1, h2 "host-b" (by decide), h3 "host-b" (by decide)⟩

/-! ## Lister aggregation and headers (C6) -/

/-- Counterexample for C6 as stated: with two connections yielding rows
`[(1, "a")]` and `[(2, "b")]`, `LmiLister.process_session` hands the
formatter one `(columns, rows)` pair per connection; the rows appear in
connection order, but the configured header accompanies each of the two
invocations — it is applied twice, not exactly once. -/
theorem lister_header_applied_per_connection :
    listerProcessSession
      (fun c => if c.hostname = "host-a" then .ok [[.int 1, .str "a"]]
                else .ok [[.int 2, .str "b"]])
      (some [.str "Header"]) ⟨[⟨"host-a"⟩, ⟨"host-b"⟩], []⟩
      = .ok ([([.str "Header"], [[.int 1, .str "a"]]),
              ([.str "Header"], [[.int 2, .str "b"]])], 0)
  ∧ ([([PyVal.str "Header"], [[PyVal.int 1, PyVal.str "a"]]),
      ([PyVal.str "Header"], [[PyVal.int 2, PyVal.str "b"]])].map Prod.fst).length = 2
  ∧ (2 : Nat) ≠ 1 :=
  ⟨rfl, rfl, fun h => Nat.noConfusion (Nat.succ.inj h)⟩

/-- Claim C6 (amended): for actions that succeed on every connection, the
Lister policy invokes the formatter once per connection with that
connection's rows, in session order, the declared header heading each
invocation; when no `COLUMNS` are declared, the first row produced by each
connection's action is consumed as that connection's header. -/
theorem lister_formatter_called_once_per_connection
    (execute : Conn → Except String (List (List PyVal)))
    (hdr : List PyVal) (rows : Conn → List (List PyVal)) (session : Session)
    (hex : ∀ c ∈ session.connections, execute c = .ok (rows c))
    (hne : ∀ c ∈ session.connections, rows c ≠ []) :
    listerProcessSession execute (some hdr) session
      = .ok (session.connections.map (fun c => (hdr, rows c)), 0)
  ∧ listerProcessSession execute none session
      = .ok (session.connections.map
          (fun c => ((rows c).headI, (rows c).tail)), 0) := by
  constructor
  · have h := listerLoop_ok (listerTakeAction execute (some hdr))
      (fun c => (hdr, rows c)) session.connections []
      (fun c hc => by simp [listerTakeAction, hex c hc])
    simp [listerProcessSession, h]
  · have h := listerLoop_ok (listerTakeAction execute none)
      (fun c => ((rows c).headI, (rows c).tail)) session.connections []
      (fun c hc => by
        cases hrows : rows c with
        | nil => exact absurd hrows (hne c hc)
        | cons first rest =>
          simp [listerTakeAction, hex c hc, hrows])
    simp [listerProcessSession, h]

/-- Witness for C6 (amended): two connections, each yielding one row naming
its host. -/
theorem lister_formatter_called_once_per_connection_witness :
    listerProcessSession (fun c => .ok [[.str c.hostname]]) (some [.str "H"])
      ⟨[⟨"host-a"⟩, ⟨"host-b"⟩], []⟩
      = .ok ([([.str "H"], [[.str "host-a"]]), ([.str "H"], [[.str "host-b"]])], 0)
  ∧ listerProcessSession (fun c => .ok [[.str c.hostname]]) none
      ⟨[⟨"host-a"⟩, ⟨"host-b"⟩], []⟩
      = .ok ([([.str "host-a"], []), ([.str "host-b"], [])], 0) := by
  obtain ⟨h1, h2⟩ := lister_formatter_called_once_per_connection
    (fun c => .ok [[.str c.hostname]]) [.str "H"] (fun c => [[.str c.hostname]])
    ⟨[⟨"host-a"⟩, ⟨"host-b"⟩], []⟩ (fun _ _ => rfl)
    (fun _ _ => List.cons_ne_nil _ _)
  exact ⟨h1, h2⟩

/-! ## The first argument of check_result (C2) -/

/-- Claim C2, showing the code bug: the docopt options `❴'<device>': 'sda'❵`
bind to the single action parameter `device`, producing the positional list
`['sda']`; `LmiCheckResult.take_action` then calls
`self.check_result(args, res)`, so the first argument the predicate receives
is that positional-argument list, which is not the options dictionary the
documented contract (and the claim) promise. -/
theorem check_result_receives_args_list_not_options_dict :
    makeEndPointArgs "check" ["connection", "device"] false
      [("<device>", PyVal.str "sda")] = .ok ([PyVal.str "sda"], [])
  ∧ (checkResultProcessSession (fun _ => .ok (.int 0)) (fun _ _ => true)
        [PyVal.str "sda"] false none (fun _ => "") ⟨[⟨"host-a"⟩], []⟩).checkCalls
      = [(.list [.str "sda"], .int 0)]
  ∧ PyVal.list [PyVal.str "sda"] ≠ PyVal.dict [("<device>", PyVal.str "sda")] :=
  ⟨rfl, rfl, fun h => PyVal.noConfusion h⟩

/-! ## CheckResult exit code (C3) -/

/-- Claim C3, showing the code bug: `LmiCheckResult.process_session` has no
`return` statement (and `LmiSessionCommand.run_with_args` discards its
value), so a completed invocation yields Python `None` — whether the
per-connection check failed or passed — and `None` is not the integer `0`
that the claim and the documented `:rtype: int` contract promise. -/
theorem check_result_process_session_returns_none_exit :
    (checkResultProcessSession (fun _ => .ok (.int 1)) (fun _ _ => false) [] false none
        (fun _ => "") ⟨[⟨"host-a"⟩], []⟩).exitCode = none
  ∧ (checkResultProcessSession (fun _ => .ok (.int 0)) (fun _ _ => true) [] false none
        (fun _ => "") ⟨[⟨"host-a"⟩], []⟩).exitCode = none
  ∧ (none : Option Int) ≠ some 0 :=
  ⟨rfl, rfl, fun h => Option.noConfusion h⟩

/-! ## The default ShowInstance renderer (C4) -/

/-- Claim C4, showing the code bug: for a ShowInstance command with neither
`PROPERTIES` nor `DYNAMIC_PROPERTIES`, `_make_render_all_properties` stores
the all-properties renderer in the class dictionary but returns `None`, and
`ShowInstanceMetaClass.__new__` then assigns that `None` over the same
`render` key — the built command's `render` is `None` (so calling it raises
a `TypeError`) instead of the renderer that would have returned every
property as ordered `(label, value)` data. -/
theorem show_instance_render_slot_overwritten_with_none :
    makeRenderAllProperties true ⟨none⟩ = (⟨some .allProperties⟩, none)
  ∧ showInstanceMetaNew true false none ⟨none⟩ = .ok ⟨none⟩
  ∧ renderAllProperties ⟨[("Name", .str "sda"), ("BlockSize", .pyNone)]⟩
      = (["Name", "BlockSize"], [.str "sda", .str ""]) :=
  ⟨rfl, rfl, rfl⟩

/-- Witness for C1 (amended): one connection whose action succeeds and one
whose action raises; both policies process both connections and record the
error as a per-connection failure. -/
theorem show_and_check_convert_errors_and_process_all_witness :
    (showInstanceProcessSession
        (fun c => if c.hostname = "host-a" then .ok .pyNone else .error "boom")
        (fun _ => .ok (["P"], [.pyNone])) ⟨[⟨"host-a"⟩, ⟨"host-b"⟩], []⟩).exitCode = 0
  ∧ (showInstanceProcessSession
        (fun c => if c.hostname = "host-a" then .ok .pyNone else .error "boom")
        (fun _ => .ok (["P"], [.pyNone])) ⟨[⟨"host-a"⟩, ⟨"host-b"⟩], []⟩).outputs
      = [(["P"], [.pyNone])]
  ∧ (showInstanceProcessSession
        (fun c => if c.hostname = "host-a" then .ok .pyNone else .error "boom")
        (fun _ => .ok (["P"], [.pyNone])) ⟨[⟨"host-a"⟩, ⟨"host-b"⟩], []⟩).failures
      = [("host-b", "boom")]
  ∧ (checkResultProcessSession
        (fun c => if c.hostname = "host-a" then .ok .pyNone else .error "boom")
        (fun _ _ => true) [] false none (fun _ => "")
        ⟨[⟨"host-a"⟩, ⟨"host-b"⟩], []⟩).invoked = ["host-a", "host-b"]
  ∧ (checkResultProcessSession
        (fun c => if c.hostname = "host-a" then .ok .pyNone else .error "boom")
        (fun _ _ => true) [] false none (fun _ => "")
        ⟨[⟨"host-a"⟩, ⟨"host-b"⟩], []⟩).passed = [("host-a", none)]
  ∧ (checkResultProcessSession
        (fun c => if c.hostname = "host-a" then .ok .pyNone else .error "boom")
        (fun _ _ => true) [] false none (fun _ => "")
        ⟨[⟨"host-a"⟩, ⟨"host-b"⟩], []⟩).failed = [("host-b", some "boom")] :=
  show_and_check_convert_errors_and_process_all
    (fun c => if c.hostname = "host-a" then .ok .pyNone else .error "boom")
    (fun _ => .ok (["P"], [.pyNone])) (fun _ _ => true) [] false none (fun _ => "")
    ⟨[⟨"host-a"⟩, ⟨"host-b"⟩], []⟩
